import Mathlib

/-!
Verification development for the church-management backend
(multi-tenant panel: permission matrix, role normalization, scope
resolution, tenant slug allocation, and transactional panel routes).

The definitions below are shallow embeddings of the TypeScript source:
  * `src/panel/permissions.ts` : roles, modules, actions, the permission
    matrix and `canAccess` / `getRoleScope` / `normalizePanelRole`;
  * `src/routes/auth.routes.ts` : `normalizeRole`, `slugifyChurchName`,
    `buildSlugCandidate`, `createTenantWithInternalSlug`,
    `loadAccessContext`, `getVisibleCells`, `assertPermission`, and the
    register / transfer / promote route handlers.
Database rows are modeled as Lean structures, SQL statements as pure
functions over an explicit database value, and uuid generation as a
counter of abstract numeric ids.
-/

namespace ChurchPanel

deriving instance DecidableEq for Except

/-! ### Enumerations (src/panel/permissions.ts, src/types/auth.ts) -/

inductive PanelRole where
  | admin_geral
  | pastor_presidente
  | pastor_rede
  | lider_celula
  | secretaria
  deriving DecidableEq, Fintype

inductive ModuleKey where
  | dashboard
  | cells_admin
  | discipleship
  | consolidation
  | leadership_school
  | pastor_presidente
  | pastor_rede
  | lider_celula
  | email
  deriving DecidableEq, Fintype

/-- The six actions.  The source name `export` is a Lean keyword, so the
constructor is called `exportAction`; `delete`, `print` keep their names. -/
inductive ActionKey where
  | view
  | create
  | edit
  | delete
  | exportAction
  | print
  deriving DecidableEq, Fintype

inductive ScopeKind where
  | all
  | network
  | cell
  deriving DecidableEq

/-- The database role enumeration `tenant_role` (legacy plus canonical
values), also the TypeScript union `TenantRole` / `MemberRole`. -/
inductive TenantRole where
  | owner
  | admin
  | leader
  | member
  | admin_geral
  | pastor_presidente
  | pastor_rede
  | lider_celula
  | secretaria
  deriving DecidableEq, Fintype

/-! ### Permission matrix (src/panel/permissions.ts) -/

def allActions : List ActionKey :=
  [.view, .create, .edit, .delete, .exportAction, .print]

def readActions : List ActionKey := [.view, .exportAction, .print]

def editorActions : List ActionKey := [.view, .create, .edit, .exportAction, .print]

structure RolePermissions where
  scope : ScopeKind
  modules : ModuleKey → List ActionKey

/-- The `rolePermissions` record literal, one arm per role, one case per
module, exactly as written in the source. -/
def rolePermissions : PanelRole → RolePermissions
  | .admin_geral =>
    { scope := .all
      modules := fun m => match m with
        | .dashboard => allActions
        | .cells_admin => allActions
        | .discipleship => allActions
        | .consolidation => allActions
        | .leadership_school => allActions
        | .pastor_presidente => allActions
        | .pastor_rede => allActions
        | .lider_celula => allActions
        | .email => allActions }
  | .pastor_presidente =>
    { scope := .all
      modules := fun m => match m with
        | .dashboard => readActions
        | .cells_admin => editorActions
        | .discipleship => readActions
        | .consolidation => editorActions
        | .leadership_school => readActions
        | .pastor_presidente => editorActions
        | .pastor_rede => readActions
        | .lider_celula => readActions
        | .email => editorActions }
  | .pastor_rede =>
    { scope := .network
      modules := fun m => match m with
        | .dashboard => readActions
        | .cells_admin => [.view]
        | .discipleship => readActions
        | .consolidation => editorActions
        | .leadership_school => readActions
        | .pastor_presidente => []
        | .pastor_rede => editorActions
        | .lider_celula => readActions
        | .email => editorActions }
  | .lider_celula =>
    { scope := .cell
      modules := fun m => match m with
        | .dashboard => readActions
        | .cells_admin => [.view]
        | .discipleship => editorActions
        | .consolidation => editorActions
        | .leadership_school => readActions
        | .pastor_presidente => []
        | .pastor_rede => []
        | .lider_celula => editorActions
        | .email => editorActions }
  | .secretaria =>
    { scope := .all
      modules := fun m => match m with
        | .dashboard => readActions
        | .cells_admin => editorActions
        | .discipleship => editorActions
        | .consolidation => editorActions
        | .leadership_school => readActions
        | .pastor_presidente => readActions
        | .pastor_rede => readActions
        | .lider_celula => readActions
        | .email => editorActions }

def getRoleScope (role : PanelRole) : ScopeKind :=
  (rolePermissions role).scope

def getRolePermissions (role : PanelRole) : ModuleKey → List ActionKey :=
  (rolePermissions role).modules

def canAccess (role : PanelRole) (module : ModuleKey) (action : ActionKey) : Bool :=
  ((rolePermissions role).modules module).contains action

/-! ### The policy table of the specification (section 4.1)

Modelled from the spec: a second, independent statement of the policy
table, written from the prose of the specification, used only to compare
with the source matrix above. -/

def specAllowedActions : PanelRole → ModuleKey → List ActionKey
  | .admin_geral, _ => [.view, .create, .edit, .delete, .exportAction, .print]
  | .pastor_presidente, m => match m with
    | .cells_admin => [.view, .create, .edit, .exportAction, .print]
    | .consolidation => [.view, .create, .edit, .exportAction, .print]
    | .email => [.view, .create, .edit, .exportAction, .print]
    | .pastor_presidente => [.view, .create, .edit, .exportAction, .print]
    | _ => [.view, .exportAction, .print]
  | .pastor_rede, m => match m with
    | .cells_admin => [.view]
    | .consolidation => [.view, .create, .edit, .exportAction, .print]
    | .email => [.view, .create, .edit, .exportAction, .print]
    | .pastor_presidente => []
    | .pastor_rede => [.view, .create, .edit, .exportAction, .print]
    | _ => [.view, .exportAction, .print]
  | .lider_celula, m => match m with
    | .cells_admin => [.view]
    | .discipleship => [.view, .create, .edit, .exportAction, .print]
    | .consolidation => [.view, .create, .edit, .exportAction, .print]
    | .email => [.view, .create, .edit, .exportAction, .print]
    | .pastor_presidente => []
    | .pastor_rede => []
    | .lider_celula => [.view, .create, .edit, .exportAction, .print]
    | _ => [.view, .exportAction, .print]
  | .secretaria, m => match m with
    | .cells_admin => [.view, .create, .edit, .exportAction, .print]
    | .discipleship => [.view, .create, .edit, .exportAction, .print]
    | .consolidation => [.view, .create, .edit, .exportAction, .print]
    | .email => [.view, .create, .edit, .exportAction, .print]
    | _ => [.view, .exportAction, .print]

def specScopeOf : PanelRole → ScopeKind
  | .admin_geral => .all
  | .pastor_presidente => .all
  | .pastor_rede => .network
  | .lider_celula => .cell
  | .secretaria => .all

/-! ### Role normalizers -/

/-- `normalizePanelRole` from src/panel/permissions.ts: the alias map
`roleAliases` (owner, admin, leader, member) with fallthrough
`roleAliases[role] ?? (role as PanelRole)` on canonical values. -/
def normalizePanelRole : TenantRole → PanelRole
  | .owner => .admin_geral
  | .admin => .admin_geral
  | .leader => .lider_celula
  | .member => .lider_celula
  | .admin_geral => .admin_geral
  | .pastor_presidente => .pastor_presidente
  | .pastor_rede => .pastor_rede
  | .lider_celula => .lider_celula
  | .secretaria => .secretaria

/-- `normalizeRole` from src/routes/auth.routes.ts: maps owner and admin
to admin_geral, leader to lider_celula, and returns every other value
(including `member`) unchanged. -/
def normalizeRole (role : TenantRole) : TenantRole :=
  if role = .owner ∨ role = .admin then .admin_geral
  else if role = .leader then .lider_celula
  else role

/-- Untyped (runtime) view of `normalizePanelRole` as compiled to
JavaScript: a string lookup in the alias object with pass-through of any
other string.  Used to settle claims about inputs outside the TypeScript
union type. -/
def roleAliasesStr (role : String) : Option String :=
  if role = "owner" then some "admin_geral"
  else if role = "admin" then some "admin_geral"
  else if role = "leader" then some "lider_celula"
  else if role = "member" then some "lider_celula"
  else none

def normalizePanelRoleStr (role : String) : String :=
  (roleAliasesStr role).getD role

/-- Untyped (runtime) view of `normalizeRole`. -/
def normalizeRoleStr (role : String) : String :=
  if role = "owner" ∨ role = "admin" then "admin_geral"
  else if role = "leader" then "lider_celula"
  else role

def legacyRoleStrings : List String := ["owner", "admin", "leader", "member"]

def canonicalRoleStrings : List String :=
  ["admin_geral", "pastor_presidente", "pastor_rede", "lider_celula", "secretaria"]

/-! ### Errors (src/common/errors.ts) -/

/-- The `AppError` class: a message plus an HTTP status code. -/
structure AppError where
  message : String
  statusCode : Nat
  deriving DecidableEq

/-- The error thrown by `assertPermission`. -/
def permissionDeniedError : AppError :=
  ⟨"Voce nao possui permissao para esta acao.", 403⟩

/-! ### Access context and the permission gate (src/routes/auth.routes.ts) -/

structure AccessContext where
  userId : Nat
  userName : String
  userEmail : String
  tenantId : Nat
  tenantName : String
  role : PanelRole
  scope : ScopeKind
  networkIds : List Nat
  cellIds : List Nat
  deriving DecidableEq

/-- `assertPermission`: throws `AppError(403)` unless the matrix allows
the action for the role of the context. -/
def assertPermission (ctx : AccessContext) (module : ModuleKey) (action : ActionKey) :
    Except AppError Unit :=
  if canAccess ctx.role module action then .ok () else .error permissionDeniedError

/-! ### Slug normalization (slugifyChurchName, src/routes/auth.routes.ts)

Strings are handled as lists of characters.  The NFD normalization plus
removal of combining marks U+0300..U+036F is abstracted as a parameter
`nfd`; every property proved below holds for an arbitrary such function,
because the later pipeline stages discard all characters outside
`[a-z0-9]` anyway. -/

def isLowerAlnum (c : Char) : Bool :=
  (('a' ≤ c && c ≤ 'z') || ('0' ≤ c && c ≤ '9'))

def isSlugChar (c : Char) : Bool :=
  isLowerAlnum c || c = '-'

/-- The replace step on runs: each maximal run of characters outside
`[a-z0-9]` becomes a single dash.  The boolean argument records whether
the previous character belonged to such a run. -/
def replaceRunsGo : Bool → List Char → List Char
  | _, [] => []
  | inRun, c :: rest =>
    if isLowerAlnum c then c :: replaceRunsGo false rest
    else if inRun then replaceRunsGo true rest
    else '-' :: replaceRunsGo true rest

/-- The trim step: strip leading and trailing dash runs. -/
def trimDashes (s : List Char) : List Char :=
  ((s.dropWhile (· == '-')).reverse.dropWhile (· == '-')).reverse

/-- The collapse step: every run of two or more dashes becomes a single
dash.  The boolean argument records whether the previous kept character
was a dash. -/
def collapseDashesGo : Bool → List Char → List Char
  | _, [] => []
  | prevDash, c :: rest =>
    if c = '-' then
      if prevDash then collapseDashesGo true rest
      else '-' :: collapseDashesGo true rest
    else c :: collapseDashesGo false rest

/-- The normalization pipeline of `slugifyChurchName` before the
fallback: strip diacritics (abstracted), lowercase, replace runs, trim,
collapse, truncate to 60. -/
def slugBase (nfd : List Char → List Char) (value : List Char) : List Char :=
  ((collapseDashesGo false
      (trimDashes
        (replaceRunsGo false ((nfd value).map Char.toLower)))).take 60)

/-- `slugifyChurchName`: the normalized base, or the literal `igreja`
when the base is empty (`base || "igreja"`). -/
def slugifyChurchName (nfd : List Char → List Char) (value : List Char) : List Char :=
  let base := slugBase nfd value
  if base.isEmpty then "igreja".toList else base

/-- Candidate for a given attempt: attempt 0 is the base itself, attempt
k appends `-(k+1)` (decimal), truncating the base so the whole candidate
fits in 60 characters (`Math.max(1, 60 - suffix.length - 1)`). -/
def buildSlugCandidate (base : List Char) (attempt : Nat) : List Char :=
  if attempt = 0 then base
  else
    let suffix := Nat.toDigits 10 (attempt + 1)
    let maxBaseLength := max 1 (60 - suffix.length - 1)
    base.take maxBaseLength ++ '-' :: suffix

/-! ### Base-36 rendering of `Date.now()` for the allocator fallback -/

def base36Digit (n : Nat) : Char :=
  if n < 10 then Char.ofNat (48 + n) else Char.ofNat (87 + n)

def natToBase36Aux (n : Nat) (acc : List Char) : List Char :=
  if n < 36 then base36Digit n :: acc
  else natToBase36Aux (n / 36) (base36Digit (n % 36) :: acc)
  termination_by n
  decreasing_by exact Nat.div_lt_self (by omega) (by omega)

/-- `n.toString(36)` on a natural number: lowercase base-36 digits. -/
def natToBase36 (n : Nat) : List Char := natToBase36Aux n []

/-! ### Tenant slug allocator (createTenantWithInternalSlug)

The datastore insert is abstracted as a deterministic oracle mapping a
candidate slug to its outcome (the inserted row, a uniqueness violation
on the slug column, or another database error). -/

/-- A pg error as inspected by the source: `code` and `constraint`. -/
structure PgError where
  code : String
  constraint : String
  deriving DecidableEq

structure TenantRow where
  id : Nat
  name : String
  slug : List Char
  is_active : Bool
  deriving DecidableEq

inductive InsertOutcome where
  | ok (t : TenantRow)
  | fail (e : PgError)
  deriving DecidableEq

/-- The retry test of the source:
`dbError.code === "23505" && dbError.constraint === "tenants_slug_unique"`. -/
def isSlugUniqueViolation (e : PgError) : Bool :=
  e.code == "23505" && e.constraint == "tenants_slug_unique"

def isUniqViolOutcome : InsertOutcome → Bool
  | .ok _ => false
  | .fail e => isSlugUniqueViolation e

/-- The `for (attempt = 0; attempt < 200; ...)` loop, written with an
explicit remaining-iterations count.  `none` means the loop ran out. -/
def slugInsertLoop (insert : List Char → InsertOutcome) (base : List Char) :
    Nat → Nat → Option (Except PgError TenantRow)
  | _, 0 => none
  | attempt, r + 1 =>
    match insert (buildSlugCandidate base attempt) with
    | .ok t => some (.ok t)
    | .fail e =>
      if isSlugUniqueViolation e then slugInsertLoop insert base (attempt + 1) r
      else some (.error e)

/-- The fallback candidate after 200 collisions:
`(base.slice(0, 50) + "-" + Date.now().toString(36)).slice(0, 60)`. -/
def fallbackSlug (base : List Char) (now : Nat) : List Char :=
  (base.take 50 ++ '-' :: natToBase36 now).take 60

/-- `createTenantWithInternalSlug` over the abstract insert oracle. -/
def createTenantWithInternalSlug (nfd : List Char → List Char)
    (insert : List Char → InsertOutcome) (now : Nat) (churchName : List Char) :
    Except PgError TenantRow :=
  let base := slugifyChurchName nfd churchName
  match slugInsertLoop insert base 0 200 with
  | some r => r
  | none =>
    match insert (fallbackSlug base now) with
    | .ok t => .ok t
    | .fail e => .error e

/-- Candidate tried at a given attempt for a given church name. -/
def candidateAt (nfd : List Char → List Char) (churchName : List Char) (i : Nat) :
    List Char :=
  buildSlugCandidate (slugifyChurchName nfd churchName) i

/-! ### Database model

One structure per table touched by the verified routes.  Timestamps that
the routes never read back (`updated_at`, `created_at`) are omitted;
`deleted_at IS NULL` is modeled as a boolean `deleted`; dates are modeled
as day numbers; uuid generation is modeled by the `nextId` counter. -/

structure UserRow where
  id : Nat
  full_name : String
  email : String
  password_hash : String
  is_active : Bool
  deleted : Bool
  deriving DecidableEq

structure TenantMemberRow where
  tenant_id : Nat
  user_id : Nat
  role : TenantRole
  is_active : Bool
  deriving DecidableEq

structure NetworkRow where
  id : Nat
  tenant_id : Nat
  name : String
  code : String
  deriving DecidableEq

structure CellRow where
  id : Nat
  tenant_id : Nat
  network_id : Nat
  name : String
  code : String
  leader_user_id : Option Nat
  email : Option String
  phone : Option String
  is_active : Bool
  deriving DecidableEq

structure NetworkScopeRow where
  tenant_id : Nat
  user_id : Nat
  network_id : Nat
  deriving DecidableEq

structure CellScopeRow where
  tenant_id : Nat
  user_id : Nat
  cell_id : Nat
  deriving DecidableEq

inductive ParticipantType where
  | visitor
  | congregated
  | member
  deriving DecidableEq

structure ParticipantRow where
  id : Nat
  tenant_id : Nat
  full_name : String
  phone_mobile : String
  deriving DecidableEq

structure ParticipantCellLinkRow where
  participant_id : Nat
  cell_id : Nat
  tenant_id : Nat
  type : ParticipantType
  is_active : Bool
  deriving DecidableEq

structure TransferLogRow where
  id : Nat
  tenant_id : Nat
  source_cell_id : Nat
  destination_cell_id : Nat
  transferred_by_user_id : Nat
  deriving DecidableEq

structure TransferLogParticipantRow where
  transfer_log_id : Nat
  participant_id : Nat
  deriving DecidableEq

structure StatusHistoryRow where
  tenant_id : Nat
  participant_id : Nat
  from_type : Option ParticipantType
  to_type : ParticipantType
  changed_by_user_id : Nat
  notes : String
  deriving DecidableEq

structure AttendanceRow where
  tenant_id : Nat
  cell_id : Nat
  week_start : Nat
  total_attendance : Nat
  deriving DecidableEq

/-- Finance amounts are stored in centavos. -/
structure FinanceRow where
  tenant_id : Nat
  entry_date : Nat
  amount : Nat
  direction : String
  description : String
  deriving DecidableEq

structure GdControlRow where
  tenant_id : Nat
  network_id : Option Nat
  cell_id : Option Nat
  meeting_type : String
  leader_name : String
  meeting_date : Nat
  meeting_time : Option String
  created_by_user_id : Nat
  deriving DecidableEq

structure PanelDB where
  users : List UserRow
  tenants : List TenantRow
  tenant_members : List TenantMemberRow
  church_networks : List NetworkRow
  cells : List CellRow
  user_network_scopes : List NetworkScopeRow
  user_cell_scopes : List CellScopeRow
  participants : List ParticipantRow
  participant_cell_links : List ParticipantCellLinkRow
  transfer_logs : List TransferLogRow
  transfer_log_participants : List TransferLogParticipantRow
  participant_status_history : List StatusHistoryRow
  attendance_entries : List AttendanceRow
  finance_entries : List FinanceRow
  gd_controls : List GdControlRow
  nextId : Nat
  deriving DecidableEq

/-! ### Access context builder and cell visibility -/

/-- `loadAccessContext`: the membership join (active user, active
membership for the tenant, active tenant, LIMIT 1), then the scope
assignment read for the scope kind of the normalized role.  `none`
models the thrown `AppError(401)` session error. -/
def loadAccessContext (db : PanelDB) (userId tenantId : Nat) : Option AccessContext :=
  match db.users.find? (fun u => u.id == userId && u.is_active && !u.deleted) with
  | none => none
  | some u =>
    match db.tenant_members.find?
        (fun m => m.user_id == userId && m.tenant_id == tenantId && m.is_active) with
    | none => none
    | some tm =>
      match db.tenants.find? (fun t => t.id == tenantId && t.is_active) with
      | none => none
      | some t =>
        let role := normalizePanelRole tm.role
        let scope := getRoleScope role
        some
          { userId := u.id
            userName := u.full_name
            userEmail := u.email
            tenantId := t.id
            tenantName := t.name
            role := role
            scope := scope
            networkIds :=
              if scope = .network then
                (db.user_network_scopes.filter
                    (fun s => s.tenant_id == tenantId && s.user_id == userId)).map
                  (fun s => s.network_id)
              else []
            cellIds :=
              if scope = .cell then
                (db.user_cell_scopes.filter
                    (fun s => s.tenant_id == tenantId && s.user_id == userId)).map
                  (fun s => s.cell_id)
              else [] }

structure VisibleCell where
  id : Nat
  name : String
  code : String
  network_id : Nat
  network_name : String
  leader_name : Option String
  email : Option String
  phone : Option String
  deriving DecidableEq

/-- The join row built by every branch of `getVisibleCells`: inner join
on `church_networks`, left join on `users` for the leader name. -/
def visibleCellRow (db : PanelDB) (c : CellRow) : Option VisibleCell :=
  (db.church_networks.find? (fun n => n.id == c.network_id)).map
    (fun n =>
      { id := c.id
        name := c.name
        code := c.code
        network_id := c.network_id
        network_name := n.name
        leader_name :=
          c.leader_user_id.bind
            (fun lid => (db.users.find? (fun u => u.id == lid)).map (fun u => u.full_name))
        email := c.email
        phone := c.phone })

/-- `getVisibleCells`: network scope filters on membership of the cell
network id in `ctx.networkIds`, cell scope on membership of the cell id
in `ctx.cellIds`, the `all` scope returns every active cell of the
tenant.  The ORDER BY of the source is dropped: no verified property
depends on the ordering of the result. -/
def getVisibleCells (db : PanelDB) (ctx : AccessContext) : List VisibleCell :=
  if ctx.scope = .network then
    if ctx.networkIds.isEmpty then []
    else
      (db.cells.filter
          (fun c =>
            c.tenant_id == ctx.tenantId && c.is_active &&
              ctx.networkIds.contains c.network_id)).filterMap
        (visibleCellRow db)
  else if ctx.scope = .cell then
    if ctx.cellIds.isEmpty then []
    else
      (db.cells.filter
          (fun c =>
            c.tenant_id == ctx.tenantId && c.is_active &&
              ctx.cellIds.contains c.id)).filterMap
        (visibleCellRow db)
  else
    (db.cells.filter (fun c => c.tenant_id == ctx.tenantId && c.is_active)).filterMap
      (visibleCellRow db)

/-! ### Transactional route machinery

A route error is either an `AppError` thrown by the handler or a
datastore error.  Each query executed inside a BEGIN..COMMIT block is
numbered; an oracle decides whether the n-th query fails (simulated
datastore failure) and with which pg error.  The catch branch of every
route performs ROLLBACK, so on any error the route returns the database
it started from. -/

inductive RouteError where
  | app (e : AppError)
  | dbe (e : PgError)
  deriving DecidableEq

abbrev Oracle := Nat → Option PgError

/-- A transaction in flight: the working database plus the index of the
next query. -/
structure Tx where
  db : PanelDB
  step : Nat
  deriving DecidableEq

/-- One read inside the transaction. -/
def txQuery {α : Type} (oracle : Oracle) (tx : Tx) (q : PanelDB → α) :
    Except PgError (α × Tx) :=
  match oracle tx.step with
  | some e => .error e
  | none => .ok (q tx.db, ⟨tx.db, tx.step + 1⟩)

/-- One write inside the transaction. -/
def txWrite (oracle : Oracle) (tx : Tx) (w : PanelDB → PanelDB) : Except PgError Tx :=
  match oracle tx.step with
  | some e => .error e
  | none => .ok ⟨w tx.db, tx.step + 1⟩

/-- One insert returning a value (RETURNING id). -/
def txInsert {α : Type} (oracle : Oracle) (tx : Tx) (ins : PanelDB → α × PanelDB) :
    Except PgError (α × Tx) :=
  match oracle tx.step with
  | some e => .error e
  | none =>
    let (a, db2) := ins tx.db
    .ok (a, ⟨db2, tx.step + 1⟩)

/-! ### Promote handler (POST /panel/leader/components/:participantId/promote) -/

/-- The category advanced by one step:
visitor to congregated, congregated to member, member stays member. -/
def promoteStep : ParticipantType → ParticipantType
  | .visitor => .congregated
  | .congregated => .member
  | .member => .member

/-- The WHERE clause of the active-link lookup: participant, cell,
tenant and `is_active = TRUE`. -/
def linkKey (participantId cellId tenantId : Nat) (l : ParticipantCellLinkRow) : Bool :=
  l.participant_id == participantId && l.cell_id == cellId &&
    l.tenant_id == tenantId && l.is_active

/-- The active-link lookup of the promote handler (LIMIT 1). -/
def linkLookup (db : PanelDB) (tenantId participantId cellId : Nat) :
    Option ParticipantCellLinkRow :=
  db.participant_cell_links.find? (linkKey participantId cellId tenantId)

inductive PromoteResponse where
  | alreadyMember (t : ParticipantType)
  | promoted (fromType toType : ParticipantType)
  deriving DecidableEq

/-- The UPDATE of the promote handler: sets `type` on rows matching
participant, cell and tenant (the source UPDATE carries no `is_active`
condition). -/
def applyPromoteUpdate (tenantId participantId cellId : Nat) (toType : ParticipantType)
    (l : ParticipantCellLinkRow) : ParticipantCellLinkRow :=
  if l.participant_id == participantId && l.cell_id == cellId && l.tenant_id == tenantId
  then { l with type := toType }
  else l

/-- The promote handler body (everything inside the try block).  The two
writes of its transaction cannot fail on their own, so no oracle is
threaded here; datastore-failure injection is exercised on the register
and transfer paths. -/
def promoteGo (db : PanelDB) (userId tenantId participantId cellId : Nat) :
    Except AppError (PromoteResponse × PanelDB) :=
  match loadAccessContext db userId tenantId with
  | none => .error ⟨"Sessao invalida para a igreja selecionada.", 401⟩
  | some ctx =>
    match assertPermission ctx .lider_celula .edit with
    | .error e => .error e
    | .ok _ =>
      if !(((getVisibleCells db ctx).map (fun c => c.id)).contains cellId) then
        .error ⟨"Celula fora do seu escopo.", 403⟩
      else
        match linkLookup db ctx.tenantId participantId cellId with
        | none => .error ⟨"Participante nao localizado.", 404⟩
        | some current =>
          if current.type = promoteStep current.type then
            .ok (.alreadyMember (promoteStep current.type), db)
          else
            .ok (.promoted current.type (promoteStep current.type),
              { db with
                  participant_cell_links :=
                    db.participant_cell_links.map
                      (applyPromoteUpdate ctx.tenantId participantId cellId
                        (promoteStep current.type))
                  participant_status_history :=
                    db.participant_status_history ++
                      [{ tenant_id := ctx.tenantId
                         participant_id := participantId
                         from_type := some current.type
                         to_type := promoteStep current.type
                         changed_by_user_id := ctx.userId
                         notes := "Promocao de categoria" }] })

/-- The promote route: COMMIT on success, ROLLBACK (the original
database) on any error. -/
def promoteParticipant (db : PanelDB) (userId tenantId participantId cellId : Nat) :
    Except AppError PromoteResponse × PanelDB :=
  match promoteGo db userId tenantId participantId cellId with
  | .ok (res, db2) => (.ok res, db2)
  | .error e => (.error e, db)

/-! ### Transfer handler (POST /panel/transfers) -/

structure TransferPayload where
  sourceCellId : Nat
  destinationCellId : Nat
  participantIds : List Nat
  deriving DecidableEq

/-- The UPDATE that deactivates the active source link of one
participant. -/
def deactivateSourceLink (tenantId sourceCellId pid : Nat) (db : PanelDB) : PanelDB :=
  { db with
      participant_cell_links :=
        db.participant_cell_links.map
          (fun l =>
            if l.participant_id == pid && l.cell_id == sourceCellId &&
                l.tenant_id == tenantId && l.is_active
            then { l with is_active := false }
            else l) }

/-- The INSERT .. ON CONFLICT (participant_id, cell_id) DO UPDATE that
activates the destination link, carrying the source type. -/
def activateDestinationLink (tenantId destCellId pid : Nat) (ty : ParticipantType)
    (db : PanelDB) : PanelDB :=
  if db.participant_cell_links.any
      (fun l => l.participant_id == pid && l.cell_id == destCellId) then
    { db with
        participant_cell_links :=
          db.participant_cell_links.map
            (fun l =>
              if l.participant_id == pid && l.cell_id == destCellId
              then { l with type := ty, is_active := true }
              else l) }
  else
    { db with
        participant_cell_links :=
          db.participant_cell_links ++ [⟨pid, destCellId, tenantId, ty, true⟩] }

/-- The per-participant body of the transfer loop: deactivate at source,
activate at destination, record the participant on the transfer log. -/
def transferLoop (oracle : Oracle) (tenantId sourceCellId destCellId logId : Nat) :
    List (Nat × ParticipantType) → Tx → Except PgError Tx
  | [], tx => .ok tx
  | (pid, ty) :: rest, tx => do
    let tx ← txWrite oracle tx (deactivateSourceLink tenantId sourceCellId pid)
    let tx ← txWrite oracle tx (activateDestinationLink tenantId destCellId pid ty)
    let tx ← txWrite oracle tx
      (fun db =>
        { db with
            transfer_log_participants :=
              db.transfer_log_participants ++ [⟨logId, pid⟩] })
    transferLoop oracle tenantId sourceCellId destCellId logId rest tx

/-- The transfer handler body (everything inside the try block):
validation, context, gate, scope check, then the BEGIN block with the
source-row read, the transfer-log insert and the per-participant loop. -/
def transferGo (oracle : Oracle) (db : PanelDB) (userId tenantId : Nat)
    (payload : TransferPayload) : Except RouteError (Nat × PanelDB) := do
  if payload.sourceCellId == payload.destinationCellId then
    .error (.app ⟨"Origem e destino nao podem ser iguais.", 400⟩)
  else
    match loadAccessContext db userId tenantId with
    | none => .error (.app ⟨"Sessao invalida para a igreja selecionada.", 401⟩)
    | some ctx => do
      let _ ← (assertPermission ctx .cells_admin .create).mapError RouteError.app
      let cells := getVisibleCells db ctx
      let cellIds := cells.map (fun c => c.id)
      if !(cellIds.contains payload.sourceCellId) ||
          !(cellIds.contains payload.destinationCellId) then
        .error (.app ⟨"Transferencia fora do seu escopo.", 403⟩)
      else do
        let tx0 : Tx := ⟨db, 0⟩
        let (sourceRows, tx1) ←
          (txQuery oracle tx0
              (fun db =>
                (db.participant_cell_links.filter
                    (fun l =>
                      l.tenant_id == ctx.tenantId && l.cell_id == payload.sourceCellId &&
                        payload.participantIds.contains l.participant_id &&
                        l.is_active)).map
                  (fun l => (l.participant_id, l.type)))).mapError RouteError.dbe
        if sourceRows.length != payload.participantIds.length then
          .error (.app ⟨"Participantes invalidos para a celula de origem.", 400⟩)
        else do
          let (logId, tx2) ←
            (txInsert oracle tx1
                (fun db =>
                  (db.nextId,
                    { db with
                        transfer_logs :=
                          db.transfer_logs ++
                            [⟨db.nextId, ctx.tenantId, payload.sourceCellId,
                              payload.destinationCellId, ctx.userId⟩]
                        nextId := db.nextId + 1 }))).mapError RouteError.dbe
          let txF ←
            (transferLoop oracle ctx.tenantId payload.sourceCellId
                payload.destinationCellId logId sourceRows tx2).mapError RouteError.dbe
          .ok (logId, txF.db)

/-- The transfer route: COMMIT on success, ROLLBACK on any error. -/
def postTransfers (oracle : Oracle) (db : PanelDB) (userId tenantId : Nat)
    (payload : TransferPayload) : Except RouteError Nat × PanelDB :=
  match transferGo oracle db userId tenantId payload with
  | .ok (logId, db2) => (.ok logId, db2)
  | .error e => (.error e, db)

/-! ### Register handler (POST /auth/register) -/

structure RegisterPayload where
  churchName : String
  name : String
  email : String
  password : String
  deriving DecidableEq

structure RegisterOk where
  userId : Nat
  tenantId : Nat
  deriving DecidableEq

inductive TenantInsertTx where
  | ok (t : TenantRow) (tx : Tx)
  | fail (e : PgError) (tx : Tx)

/-- One tenant INSERT attempt inside the registration transaction: a
simulated datastore failure from the oracle, otherwise a uniqueness
violation when the slug is already taken, otherwise the insert. -/
def tryInsertTenant (oracle : Oracle) (churchName : String) (slug : List Char)
    (tx : Tx) : TenantInsertTx :=
  match oracle tx.step with
  | some e => .fail e ⟨tx.db, tx.step + 1⟩
  | none =>
    if tx.db.tenants.any (fun t => t.slug == slug) then
      .fail ⟨"23505", "tenants_slug_unique"⟩ ⟨tx.db, tx.step + 1⟩
    else
      let row : TenantRow := ⟨tx.db.nextId, churchName, slug, true⟩
      .ok row
        ⟨{ tx.db with tenants := tx.db.tenants ++ [row], nextId := tx.db.nextId + 1 },
          tx.step + 1⟩

/-- The allocator loop of `createTenantWithInternalSlug`, executed
against the registration transaction (same control flow as the abstract
model above). -/
def createTenantTxLoop (oracle : Oracle) (churchName : String) (base : List Char)
    (now : Nat) : Nat → Nat → Tx → Except PgError (TenantRow × Tx)
  | _, 0, tx =>
    match tryInsertTenant oracle churchName (fallbackSlug base now) tx with
    | .ok t tx2 => .ok (t, tx2)
    | .fail e _ => .error e
  | attempt, r + 1, tx =>
    match tryInsertTenant oracle churchName (buildSlugCandidate base attempt) tx with
    | .ok t tx2 => .ok (t, tx2)
    | .fail e tx2 =>
      if isSlugUniqueViolation e then
        createTenantTxLoop oracle churchName base now (attempt + 1) r tx2
      else .error e

def createTenantTx (oracle : Oracle) (nfd : List Char → List Char) (now : Nat)
    (churchName : String) (tx : Tx) : Except PgError (TenantRow × Tx) :=
  createTenantTxLoop oracle churchName (slugifyChurchName nfd churchName.toList) now 0 200 tx

/-- One seeded participant: the participant row, its cell link and its
initial status-history row. -/
def seedOneParticipant (oracle : Oracle) (tenantId cellId userId : Nat)
    (userName suffix : String) (phoneIndex : Nat) (ty : ParticipantType) (tx : Tx) :
    Except PgError Tx := do
  let (pid, tx) ←
    txInsert oracle tx
      (fun db =>
        (db.nextId,
          { db with
              participants :=
                db.participants ++
                  [⟨db.nextId, tenantId, userName ++ suffix,
                    "11999990" ++ Nat.repr phoneIndex⟩]
              nextId := db.nextId + 1 }))
  let tx ←
    txWrite oracle tx
      (fun db =>
        { db with
            participant_cell_links :=
              db.participant_cell_links ++ [⟨pid, cellId, tenantId, ty, true⟩] })
  txWrite oracle tx
    (fun db =>
      { db with
          participant_status_history :=
            db.participant_status_history ++
              [⟨tenantId, pid, none, ty, userId, "Registro inicial"⟩] })

/-- One seeded attendance week (INSERT .. ON CONFLICT DO NOTHING). -/
def seedAttendanceWeek (oracle : Oracle) (tenantId cellId now week : Nat) (tx : Tx) :
    Except PgError Tx :=
  txWrite oracle tx
    (fun db =>
      let ws := now - week * 7
      if db.attendance_entries.any
          (fun a => a.tenant_id == tenantId && a.cell_id == cellId && a.week_start == ws)
      then db
      else
        { db with
            attendance_entries :=
              db.attendance_entries ++ [⟨tenantId, cellId, ws, 8 + week * 2⟩] })

/-- `seedInitialTenantData`: network, cell, the two scope rows (ON
CONFLICT DO NOTHING), three participants with links and history, four
attendance weeks, two finance rows, one GD control row. -/
def seedInitialTenantData (oracle : Oracle) (now : Nat) (tenantId userId : Nat)
    (userName userEmail : String) (tx : Tx) : Except PgError Tx := do
  let (networkId, tx) ←
    txInsert oracle tx
      (fun db =>
        (db.nextId,
          { db with
              church_networks :=
                db.church_networks ++ [⟨db.nextId, tenantId, "Rede Principal", "RED-001"⟩]
              nextId := db.nextId + 1 }))
  let (cellId, tx) ←
    txInsert oracle tx
      (fun db =>
        (db.nextId,
          { db with
              cells :=
                db.cells ++
                  [⟨db.nextId, tenantId, networkId, "Celula Central", "CEL-001",
                    some userId, some userEmail, none, true⟩]
              nextId := db.nextId + 1 }))
  let tx ←
    txWrite oracle tx
      (fun db =>
        if db.user_network_scopes.any
            (fun s =>
              s.tenant_id == tenantId && s.user_id == userId && s.network_id == networkId)
        then db
        else
          { db with
              user_network_scopes :=
                db.user_network_scopes ++ [⟨tenantId, userId, networkId⟩] })
  let tx ←
    txWrite oracle tx
      (fun db =>
        if db.user_cell_scopes.any
            (fun s =>
              s.tenant_id == tenantId && s.user_id == userId && s.cell_id == cellId)
        then db
        else
          { db with
              user_cell_scopes := db.user_cell_scopes ++ [⟨tenantId, userId, cellId⟩] })
  let tx ← seedOneParticipant oracle tenantId cellId userId userName " Visitante" 10 .visitor tx
  let tx ← seedOneParticipant oracle tenantId cellId userId userName " Congregado" 11 .congregated tx
  let tx ← seedOneParticipant oracle tenantId cellId userId userName " Membro" 12 .member tx
  let tx ← seedAttendanceWeek oracle tenantId cellId now 0 tx
  let tx ← seedAttendanceWeek oracle tenantId cellId now 1 tx
  let tx ← seedAttendanceWeek oracle tenantId cellId now 2 tx
  let tx ← seedAttendanceWeek oracle tenantId cellId now 3 tx
  let tx ←
    txWrite oracle tx
      (fun db =>
        { db with
            finance_entries :=
              db.finance_entries ++
                [⟨tenantId, now, 55000, "in", "Ofertas"⟩,
                  ⟨tenantId, now, 21000, "out", "Apoio social"⟩] })
  txWrite oracle tx
    (fun db =>
      { db with
          gd_controls :=
            db.gd_controls ++
              [⟨tenantId, some networkId, some cellId, "gd", userName, now,
                some "19:30", userId⟩] })

/-- The register handler body (everything inside the try block after
BEGIN): duplicate-email check, tenant creation with internal slug, user
insert, owner membership insert, seed data. -/
def registerGo (oracle : Oracle) (nfd : List Char → List Char) (now : Nat)
    (hashPw : String → String) (db : PanelDB) (payload : RegisterPayload) :
    Except RouteError (RegisterOk × PanelDB) := do
  let email := payload.email.toLower
  let passwordHash := hashPw payload.password
  let tx0 : Tx := ⟨db, 0⟩
  let (existing, tx1) ←
    (txQuery oracle tx0
        (fun db =>
          db.users.filter (fun u => u.email.toLower == email && !u.deleted))).mapError
      RouteError.dbe
  if !existing.isEmpty then
    .error (.app ⟨"Este e-mail ja esta cadastrado.", 409⟩)
  else do
    let (tenant, tx2) ← (createTenantTx oracle nfd now payload.churchName tx1).mapError
      RouteError.dbe
    let (newUserId, tx3) ←
      (txInsert oracle tx2
          (fun db =>
            (db.nextId,
              { db with
                  users :=
                    db.users ++ [⟨db.nextId, payload.name, email, passwordHash, true, false⟩]
                  nextId := db.nextId + 1 }))).mapError RouteError.dbe
    let tx4 ←
      (txWrite oracle tx3
          (fun db =>
            { db with
                tenant_members :=
                  db.tenant_members ++ [⟨tenant.id, newUserId, .admin_geral, true⟩] })).mapError
        RouteError.dbe
    let tx5 ←
      (seedInitialTenantData oracle now tenant.id newUserId payload.name email tx4).mapError
        RouteError.dbe
    .ok (⟨newUserId, tenant.id⟩, tx5.db)

/-- The register route: COMMIT on success, ROLLBACK on any error. -/
def register (oracle : Oracle) (nfd : List Char → List Char) (now : Nat)
    (hashPw : String → String) (db : PanelDB) (payload : RegisterPayload) :
    Except RouteError RegisterOk × PanelDB :=
  match registerGo oracle nfd now hashPw db payload with
  | .ok (res, db2) => (.ok res, db2)
  | .error e => (.error e, db)

/-! ### Concrete fixtures used by witness theorems -/

def tenantW8 : TenantRow := ⟨7, "Graca Viva", "graca-viva-2".toList, true⟩

/-- Abstract insert oracle for the allocator witness: the base slug is
already taken, every other candidate succeeds. -/
def insertW8 : List Char → InsertOutcome := fun c =>
  if c == "graca-viva".toList then .fail ⟨"23505", "tenants_slug_unique"⟩
  else .ok tenantW8

def emptyDB : PanelDB :=
  ⟨[], [], [], [], [], [], [], [], [], [], [], [], [], [], [], 10⟩

def dbW2 : PanelDB :=
  { emptyDB with
      users := [⟨2, "Bia", "bia@x", "h", true, false⟩]
      tenants := [⟨1, "Igreja Central", "igreja-central".toList, true⟩]
      tenant_members := [⟨1, 2, .pastor_rede, true⟩]
      church_networks := [⟨3, 1, "Rede A", "R1"⟩, ⟨9, 1, "Rede B", "R2"⟩]
      cells := [⟨4, 1, 3, "Celula A", "C1", none, none, none, true⟩,
                ⟨5, 1, 9, "Celula B", "C2", none, none, none, true⟩]
      user_network_scopes := [⟨1, 2, 3⟩] }

def ctxW2 : AccessContext :=
  ⟨2, "Bia", "bia@x", 1, "Igreja Central", .pastor_rede, .network, [3], []⟩

def dbW3 : PanelDB :=
  { emptyDB with
      users := [⟨2, "Pri", "pri@x", "h", true, false⟩]
      tenants := [⟨1, "Igreja Central", "igreja-central".toList, true⟩]
      tenant_members := [⟨1, 2, .pastor_presidente, true⟩] }

def ctxW3 : AccessContext :=
  ⟨2, "Leo", "leo@x", 1, "Igreja Central", .lider_celula, .cell, [], [4]⟩

def ctxW3p : AccessContext :=
  ⟨2, "Pri", "pri@x", 1, "Igreja Central", .pastor_presidente, .all, [], []⟩

def dbW9 : PanelDB :=
  { emptyDB with
      users := [⟨2, "Ana", "ana@x", "h", true, false⟩]
      tenants := [⟨1, "Igreja Central", "igreja-central".toList, true⟩]
      tenant_members := [⟨1, 2, .admin_geral, true⟩]
      church_networks := [⟨3, 1, "Rede A", "R1"⟩]
      cells := [⟨4, 1, 3, "Celula A", "C1", none, none, none, true⟩,
                ⟨5, 1, 3, "Celula B", "C2", none, none, none, true⟩]
      participant_cell_links := [⟨6, 4, 1, .visitor, true⟩]
      nextId := 100 }

def payloadW9 : TransferPayload := ⟨4, 5, [6]⟩

/-- Oracle failing the fourth query of the transaction: for the transfer
this is the destination-activation write, right after the source link
was deactivated. -/
def oracleW9 : Oracle := fun n => if n == 3 then some ⟨"XX", "boom"⟩ else none

def payloadW9r : RegisterPayload := ⟨"Graca Viva", "Ana", "Ana@x.com", "segredo12"⟩

/-- Oracle failing the fourth query of the registration transaction (the
owner-membership insert, after the tenant and user inserts). -/
def oracleW9r : Oracle := fun n => if n == 3 then some ⟨"XX", "boom"⟩ else none

def dbW10 : PanelDB :=
  { emptyDB with
      users := [⟨2, "Ana", "ana@x", "h", true, false⟩]
      tenants := [⟨1, "Igreja Central", "igreja-central".toList, true⟩]
      tenant_members := [⟨1, 2, .admin_geral, true⟩]
      church_networks := [⟨3, 1, "Rede A", "R1"⟩]
      cells := [⟨4, 1, 3, "Celula A", "C1", none, none, none, true⟩,
                ⟨5, 1, 3, "Celula B", "C2", none, none, none, true⟩]
      participant_cell_links := [⟨6, 4, 1, .visitor, true⟩]
      nextId := 100 }

def linkW10 : ParticipantCellLinkRow := ⟨6, 4, 1, .visitor, true⟩

/-! ## Helper lemmas -/

theorem mem_of_mem_dropWhile {α : Type} (p : α → Bool) (l : List α) (a : α)
    (h : a ∈ l.dropWhile p) : a ∈ l := by
  induction l with
  | nil => simp at h
  | cons x xs ih =>
    by_cases hx : p x = true
    · rw [List.dropWhile_cons_of_pos hx] at h
      exact List.mem_cons_of_mem x (ih h)
    · rw [List.dropWhile_cons_of_neg hx] at h
      exact h

theorem replaceRunsGo_mem (s : List Char) :
    ∀ (b : Bool) (c : Char), c ∈ replaceRunsGo b s → isSlugChar c = true := by
  induction s with
  | nil => intro b c h; simp [replaceRunsGo] at h
  | cons x xs ih =>
    intro b c h
    unfold replaceRunsGo at h
    by_cases hx : isLowerAlnum x = true
    · rw [if_pos hx] at h
      rcases List.mem_cons.mp h with hc | hc
      · rw [hc, isSlugChar, hx, Bool.true_or]
      · exact ih false c hc
    · rw [if_neg hx] at h
      cases b with
      | true => exact ih true c (by simpa using h)
      | false =>
        rcases List.mem_cons.mp (by simpa using h) with hc | hc
        · rw [hc]; decide
        · exact ih true c hc

theorem trimDashes_subset (s : List Char) (c : Char) (h : c ∈ trimDashes s) : c ∈ s := by
  unfold trimDashes at h
  rw [List.mem_reverse] at h
  have h2 := mem_of_mem_dropWhile _ _ _ h
  rw [List.mem_reverse] at h2
  exact mem_of_mem_dropWhile _ _ _ h2

theorem collapseDashesGo_subset (s : List Char) :
    ∀ (b : Bool) (c : Char), c ∈ collapseDashesGo b s → c ∈ s := by
  induction s with
  | nil => intro b c h; simp [collapseDashesGo] at h
  | cons x xs ih =>
    intro b c h
    unfold collapseDashesGo at h
    by_cases hx : x = '-'
    · rw [if_pos hx] at h
      cases b with
      | true => exact List.mem_cons_of_mem x (ih true c (by simpa using h))
      | false =>
        rcases List.mem_cons.mp (by simpa using h) with hc | hc
        · rw [hc, hx]; exact List.mem_cons_self _ _
        · exact List.mem_cons_of_mem x (ih true c hc)
    · rw [if_neg hx] at h
      rcases List.mem_cons.mp h with hc | hc
      · rw [hc]; exact List.mem_cons_self _ _
      · exact List.mem_cons_of_mem x (ih false c hc)

theorem slugBase_chars (nfd : List Char → List Char) (value : List Char) (c : Char)
    (h : c ∈ slugBase nfd value) : isSlugChar c = true := by
  unfold slugBase at h
  have h1 := List.take_subset 60 _ h
  have h2 := collapseDashesGo_subset _ _ _ h1
  have h3 := trimDashes_subset _ _ h2
  exact replaceRunsGo_mem _ _ _ h3

theorem slugBase_length (nfd : List Char → List Char) (value : List Char) :
    (slugBase nfd value).length ≤ 60 := by
  unfold slugBase
  simp [List.length_take]

theorem find?_map_pres {α : Type} (g : α → α) (p : α → Bool)
    (hp : ∀ x, p (g x) = p x) :
    ∀ xs : List α, (xs.map g).find? p = (xs.find? p).map g := by
  intro xs
  induction xs with
  | nil => simp
  | cons x xs ih =>
    by_cases hpx : p x = true
    · rw [List.map_cons, List.find?_cons_of_pos _ (by rw [hp x]; exact hpx),
        List.find?_cons_of_pos _ hpx, Option.map_some']
    · rw [List.map_cons, List.find?_cons_of_neg _ (by rw [hp x]; exact hpx),
        List.find?_cons_of_neg _ hpx, ih]

theorem loadAccessContext_ids (db : PanelDB) (userId tenantId : Nat) (ctx : AccessContext)
    (h : loadAccessContext db userId tenantId = some ctx) :
    ctx.userId = userId ∧ ctx.tenantId = tenantId := by
  unfold loadAccessContext at h
  cases hu : db.users.find? (fun u => u.id == userId && u.is_active && !u.deleted) with
  | none => rw [hu] at h; exact Option.noConfusion h
  | some u =>
    rw [hu] at h
    cases htm : db.tenant_members.find?
        (fun m => m.user_id == userId && m.tenant_id == tenantId && m.is_active) with
    | none => rw [htm] at h; exact Option.noConfusion h
    | some tm =>
      rw [htm] at h
      cases ht : db.tenants.find? (fun t => t.id == tenantId && t.is_active) with
      | none => rw [ht] at h; exact Option.noConfusion h
      | some t =>
        rw [ht] at h
        injection h with h
        subst h
        have hu2 := List.find?_some hu
        have ht2 := List.find?_some ht
        simp only [Bool.and_eq_true, beq_iff_eq] at hu2 ht2
        exact ⟨hu2.1.1, ht2.1⟩

/-! ## Claim theorems -/

/-- C1: for every (role, module) pair the Permission Matrix lookup is
defined (the Lean embedding is a total function) and agrees with the
policy table of the specification, action by action; `canAccess` holds
exactly when the action is in the table set, and the derived scope kind
also agrees with the spec table. -/
theorem claim1_matrix_matches_spec :
    (∀ (r : PanelRole) (m : ModuleKey) (a : ActionKey),
        canAccess r m a = true ↔ a ∈ specAllowedActions r m) ∧
    (∀ r : PanelRole, getRoleScope r = specScopeOf r) := by
  constructor
  · decide
  · decide

/-- C4 counterexample: the claim states that the role normalizer maps the
legacy alias `member` to `lider_celula`; the auth-route normalizer
`normalizeRole`, one of the two cited functions, returns `member`
unchanged instead. -/
theorem claim4_normalizer_counterexample :
    normalizeRole TenantRole.member = TenantRole.member ∧
    normalizeRole TenantRole.member ≠ TenantRole.lider_celula := by
  decide

/-- C4 amended: the panel normalizer `normalizePanelRole` maps all four
legacy aliases (owner, admin to admin_geral; leader, member to
lider_celula) and fixes the five canonical values, while the auth-route
`normalizeRole` maps owner, admin to admin_geral and leader to
lider_celula but returns `member` (and each canonical value) unchanged. -/
theorem claim4_normalizer_amended :
    normalizePanelRole .owner = .admin_geral ∧
    normalizePanelRole .admin = .admin_geral ∧
    normalizePanelRole .leader = .lider_celula ∧
    normalizePanelRole .member = .lider_celula ∧
    normalizePanelRole .admin_geral = .admin_geral ∧
    normalizePanelRole .pastor_presidente = .pastor_presidente ∧
    normalizePanelRole .pastor_rede = .pastor_rede ∧
    normalizePanelRole .lider_celula = .lider_celula ∧
    normalizePanelRole .secretaria = .secretaria ∧
    normalizeRole .owner = .admin_geral ∧
    normalizeRole .admin = .admin_geral ∧
    normalizeRole .leader = .lider_celula ∧
    normalizeRole .member = .member ∧
    normalizeRole .admin_geral = .admin_geral ∧
    normalizeRole .pastor_presidente = .pastor_presidente ∧
    normalizeRole .pastor_rede = .pastor_rede ∧
    normalizeRole .lider_celula = .lider_celula ∧
    normalizeRole .secretaria = .secretaria := by
  decide

/-- C5 counterexample: for the input `volunteer`, which is outside both
the legacy alias set and the canonical set, neither normalizer fails
with an InvalidRole error; both return the value unchanged (the runtime
view of the compiled functions is total). -/
theorem claim5_invalid_role_counterexample :
    legacyRoleStrings.contains "volunteer" = false ∧
    canonicalRoleStrings.contains "volunteer" = false ∧
    normalizePanelRoleStr "volunteer" = "volunteer" ∧
    normalizeRoleStr "volunteer" = "volunteer" := by
  decide

/-- C5 amended: for every input outside both the legacy alias set and
the canonical set, the role normalizers return the input unchanged
(pass-through); no InvalidRole failure path exists in the code. -/
theorem claim5_passthrough_amended (s : String)
    (h1 : legacyRoleStrings.contains s = false)
    (h2 : canonicalRoleStrings.contains s = false) :
    normalizePanelRoleStr s = s ∧ normalizeRoleStr s = s := by
  have ho : s ≠ "owner" := by
    rintro rfl
    rw [show legacyRoleStrings.contains "owner" = true from by decide] at h1
    exact Bool.noConfusion h1
  have ha : s ≠ "admin" := by
    rintro rfl
    rw [show legacyRoleStrings.contains "admin" = true from by decide] at h1
    exact Bool.noConfusion h1
  have hl : s ≠ "leader" := by
    rintro rfl
    rw [show legacyRoleStrings.contains "leader" = true from by decide] at h1
    exact Bool.noConfusion h1
  have hm : s ≠ "member" := by
    rintro rfl
    rw [show legacyRoleStrings.contains "member" = true from by decide] at h1
    exact Bool.noConfusion h1
  constructor
  · simp [normalizePanelRoleStr, roleAliasesStr, ho, ha, hl, hm]
  · simp [normalizeRoleStr, ho, ha, hl]

/-- C5 witness: the amended theorem applied to the concrete input
`volunteer`. -/
theorem claim5_passthrough_witness :
    normalizePanelRoleStr "volunteer" = "volunteer" ∧
    normalizeRoleStr "volunteer" = "volunteer" :=
  claim5_passthrough_amended "volunteer" (by decide) (by decide)

/-- Unfolding equation for the slug fallback. -/
theorem slugify_eq (nfd : List Char → List Char) (value : List Char) :
    slugifyChurchName nfd value =
      if (slugBase nfd value).isEmpty then "igreja".toList else slugBase nfd value := rfl

/-- C6: for every organization-name string (and every diacritic-removal
function), the slug base normalization yields a non-empty string of at
most 60 characters drawn from `[a-z0-9-]`, falling back to the literal
`igreja` whenever normalization yields the empty string; in particular
the input `!!!` yields `igreja`. -/
theorem claim6_slug_shape :
    (∀ (nfd : List Char → List Char) (value : List Char),
        slugifyChurchName nfd value ≠ [] ∧
        (slugifyChurchName nfd value).length ≤ 60 ∧
        (∀ c ∈ slugifyChurchName nfd value, isSlugChar c = true) ∧
        (slugBase nfd value = [] → slugifyChurchName nfd value = "igreja".toList)) ∧
    slugifyChurchName (fun s => s) "!!!".toList = "igreja".toList := by
  constructor
  · intro nfd value
    refine ⟨?_, ?_, ?_, ?_⟩
    · rw [slugify_eq]
      by_cases hb : (slugBase nfd value).isEmpty
      · rw [if_pos hb]; decide
      · rw [if_neg hb]
        intro hnil
        exact hb (by rw [hnil]; rfl)
    · rw [slugify_eq]
      by_cases hb : (slugBase nfd value).isEmpty
      · rw [if_pos hb]; decide
      · rw [if_neg hb]; exact slugBase_length nfd value
    · intro c hc
      rw [slugify_eq] at hc
      by_cases hb : (slugBase nfd value).isEmpty
      · rw [if_pos hb] at hc
        have hc2 : c = 'i' ∨ c = 'g' ∨ c = 'r' ∨ c = 'e' ∨ c = 'j' ∨ c = 'a' := by
          simpa using hc
        rcases hc2 with rfl | rfl | rfl | rfl | rfl | rfl <;> decide
      · rw [if_neg hb] at hc
        exact slugBase_chars nfd value c hc
    · intro h0
      rw [slugify_eq, h0]
      rfl
  · decide

/-- C6 witness: the universally quantified part applied to the concrete
inputs `Graca Viva` (non-empty base) and `!!!` (empty base, fallback). -/
theorem claim6_slug_shape_witness :
    slugifyChurchName (fun s => s) "Graca Viva".toList ≠ [] ∧
    isSlugChar 'g' = true ∧
    slugifyChurchName (fun s => s) "!!!".toList = "igreja".toList :=
  ⟨(claim6_slug_shape.1 (fun s => s) "Graca Viva".toList).1,
   (claim6_slug_shape.1 (fun s => s) "Graca Viva".toList).2.2.1 'g' (by decide),
   (claim6_slug_shape.1 (fun s => s) "!!!".toList).2.2.2 (by decide)⟩

set_option maxRecDepth 8192 in
/-- C7: candidate generation is a pure function of (base, attempt):
attempt 0 returns the base unchanged; every attempt k in 1..199 (the
range the allocator uses) returns the truncated base plus a dash plus
the decimal numeral k+1, and the candidate never exceeds 60 characters;
for the base `graca-viva`, attempt 1 yields `graca-viva-2`. -/
theorem claim7_candidate :
    (∀ base : List Char, buildSlugCandidate base 0 = base) ∧
    (∀ (base : List Char) (k : Nat), 1 ≤ k → k ≤ 199 →
        buildSlugCandidate base k =
          base.take (max 1 (60 - (Nat.toDigits 10 (k + 1)).length - 1)) ++
            '-' :: Nat.toDigits 10 (k + 1) ∧
        (buildSlugCandidate base k).length ≤ 60) ∧
    buildSlugCandidate "graca-viva".toList 1 = "graca-viva-2".toList := by
  refine ⟨?_, ?_, by decide⟩
  · intro base; simp [buildSlugCandidate]
  · intro base k hk1 hk2
    have hk0 : k ≠ 0 := by omega
    have hlen : (Nat.toDigits 10 (k + 1)).length ≤ 3 := by
      have h200 : ∀ n < 200, (Nat.toDigits 10 (n + 1)).length ≤ 3 := by decide
      exact h200 k (by omega)
    constructor
    · simp [buildSlugCandidate, hk0]
    · simp only [buildSlugCandidate, if_neg hk0, List.length_append, List.length_cons,
        List.length_take]
      omega

/-- C7 witness: the suffixed-candidate part applied to base `graca-viva`
and attempt 1. -/
theorem claim7_candidate_witness :
    (buildSlugCandidate "graca-viva".toList 1).length ≤ 60 ∧
    buildSlugCandidate "graca-viva".toList 1 =
      "graca-viva".toList.take (max 1 (60 - (Nat.toDigits 10 2).length - 1)) ++
        '-' :: Nat.toDigits 10 2 :=
  ⟨(claim7_candidate.2.1 "graca-viva".toList 1 (by decide) (by decide)).2,
   (claim7_candidate.2.1 "graca-viva".toList 1 (by decide) (by decide)).1⟩

/-- One unique-violation attempt advances the allocator loop to the next
candidate. -/
theorem slugInsertLoop_skip (insert : List Char → InsertOutcome) (base : List Char)
    (attempt r : Nat)
    (h : isUniqViolOutcome (insert (buildSlugCandidate base attempt)) = true) :
    slugInsertLoop insert base attempt (r + 1) =
      slugInsertLoop insert base (attempt + 1) r := by
  cases hins : insert (buildSlugCandidate base attempt) with
  | ok t => rw [hins] at h; exact absurd h (by simp [isUniqViolOutcome])
  | fail e =>
    rw [hins] at h
    simp only [isUniqViolOutcome] at h
    simp [slugInsertLoop, hins, h]

/-- If the first j candidates all collide, the loop behaves as if it had
started at attempt j with j fewer iterations left. -/
theorem slugInsertLoop_shift (insert : List Char → InsertOutcome) (base : List Char) :
    ∀ (j attempt r : Nat), j ≤ r →
      (∀ i, i < j →
          isUniqViolOutcome (insert (buildSlugCandidate base (attempt + i))) = true) →
      slugInsertLoop insert base attempt r = slugInsertLoop insert base (attempt + j) (r - j) := by
  intro j
  induction j with
  | zero => intro attempt r _ _; simp
  | succ n ih =>
    intro attempt r hjr huniq
    obtain ⟨r0, rfl⟩ : ∃ r0, r = r0 + 1 := ⟨r - 1, by omega⟩
    have h0 : isUniqViolOutcome (insert (buildSlugCandidate base attempt)) = true := by
      simpa using huniq 0 (by omega)
    rw [slugInsertLoop_skip insert base attempt r0 h0]
    have hrec := ih (attempt + 1) r0 (by omega) (fun i hi => by
      have hh := huniq (i + 1) (by omega)
      rw [show attempt + 1 + i = attempt + (i + 1) from by omega]
      exact hh)
    rw [hrec, show attempt + 1 + n = attempt + (n + 1) from by omega,
      show r0 - n = r0 + 1 - (n + 1) from by omega]

/-- Unfolding equation for the abstract allocator. -/
theorem createTenant_eq (nfd : List Char → List Char)
    (insert : List Char → InsertOutcome) (now : Nat) (churchName : List Char) :
    createTenantWithInternalSlug nfd insert now churchName =
      match slugInsertLoop insert (slugifyChurchName nfd churchName) 0 200 with
      | some r => r
      | none =>
        match insert (fallbackSlug (slugifyChurchName nfd churchName) now) with
        | .ok t => .ok t
        | .fail e => .error e := rfl

/-- C8: the allocator tries candidates for attempts 0..199 strictly in
order; with the first j candidates colliding (uniqueness violations on
the slug column), a successful insert at attempt j returns that row, any
other failure at attempt j propagates immediately, and if all 200
attempts collide the allocator inserts the time-based fallback candidate
exactly once, propagating whatever that insert returns. -/
theorem claim8_allocator (nfd : List Char → List Char)
    (insert : List Char → InsertOutcome) (now : Nat) (churchName : List Char)
    (j : Nat) (hj : j < 200)
    (huniq : ∀ i, i < j → isUniqViolOutcome (insert (candidateAt nfd churchName i)) = true) :
    (∀ t, insert (candidateAt nfd churchName j) = .ok t →
        createTenantWithInternalSlug nfd insert now churchName = .ok t) ∧
    (∀ e, insert (candidateAt nfd churchName j) = .fail e →
        isSlugUniqueViolation e = false →
        createTenantWithInternalSlug nfd insert now churchName = .error e) ∧
    ((∀ i, i < 200 → isUniqViolOutcome (insert (candidateAt nfd churchName i)) = true) →
      createTenantWithInternalSlug nfd insert now churchName =
        match insert (fallbackSlug (slugifyChurchName nfd churchName) now) with
        | .ok t => .ok t
        | .fail e => .error e) := by
  have hshift := slugInsertLoop_shift insert (slugifyChurchName nfd churchName) j 0 200
    (by omega) (fun i hi => by
      have hh := huniq i hi
      rw [show 0 + i = i from by omega]
      exact hh)
  have hsplit : 200 - j = (199 - j) + 1 := by omega
  refine ⟨?_, ?_, ?_⟩
  · intro t hins
    rw [createTenant_eq, hshift, hsplit]
    rw [show (0 : Nat) + j = j from by omega]
    simp only [slugInsertLoop]
    rw [show candidateAt nfd churchName j =
        buildSlugCandidate (slugifyChurchName nfd churchName) j from rfl] at hins
    rw [hins]
  · intro e hins hnonuniq
    rw [createTenant_eq, hshift, hsplit]
    rw [show (0 : Nat) + j = j from by omega]
    simp only [slugInsertLoop]
    rw [show candidateAt nfd churchName j =
        buildSlugCandidate (slugifyChurchName nfd churchName) j from rfl] at hins
    rw [hins]
    simp [hnonuniq]
  · intro huniq200
    have hshift200 := slugInsertLoop_shift insert (slugifyChurchName nfd churchName) 200 0 200
      (by omega) (fun i hi => by
        have hh := huniq200 i hi
        rw [show 0 + i = i from by omega]
        exact hh)
    rw [createTenant_eq, hshift200]
    simp only [Nat.sub_self, slugInsertLoop]

/-- C8 witness: the base `graca-viva` collides once; the allocator
returns the row inserted for the candidate `graca-viva-2` (attempt 1). -/
theorem claim8_allocator_witness :
    createTenantWithInternalSlug (fun s => s) insertW8 0 "Graca Viva".toList = .ok tenantW8 :=
  (claim8_allocator (fun s => s) insertW8 0 "Graca Viva".toList 1 (by decide)
      (fun i hi => by interval_cases i; decide)).1 tenantW8 (by decide)

/-- C2: for every access context built by `loadAccessContext` with scope
kind network, the `cellIds` set is empty; for every network-scoped
context, every cell returned by `getVisibleCells` has its network id in
the context `networkIds`; and a network-scoped actor with empty
`networkIds` sees no cells. -/
theorem claim2_network_scope (db : PanelDB) (userId tenantId : Nat) (ctx : AccessContext) :
    (loadAccessContext db userId tenantId = some ctx → ctx.scope = .network →
        ctx.cellIds = []) ∧
    (ctx.scope = .network →
        ∀ c ∈ getVisibleCells db ctx, c.network_id ∈ ctx.networkIds) ∧
    (ctx.scope = .network → ctx.networkIds = [] → getVisibleCells db ctx = []) := by
  refine ⟨?_, ?_, ?_⟩
  · intro h hscope
    unfold loadAccessContext at h
    cases hu : db.users.find? (fun u => u.id == userId && u.is_active && !u.deleted) with
    | none => rw [hu] at h; exact Option.noConfusion h
    | some u =>
      rw [hu] at h
      cases htm : db.tenant_members.find?
          (fun m => m.user_id == userId && m.tenant_id == tenantId && m.is_active) with
      | none => rw [htm] at h; exact Option.noConfusion h
      | some tm =>
        rw [htm] at h
        cases ht : db.tenants.find? (fun t => t.id == tenantId && t.is_active) with
        | none => rw [ht] at h; exact Option.noConfusion h
        | some t =>
          rw [ht] at h
          injection h with h
          subst h
          simp only at hscope ⊢
          rw [if_neg (by rw [hscope]; decide)]
  · intro hscope c hc
    unfold getVisibleCells at hc
    rw [if_pos hscope] at hc
    by_cases hne : ctx.networkIds.isEmpty
    · rw [if_pos hne] at hc; simp at hc
    · rw [if_neg hne] at hc
      rw [List.mem_filterMap] at hc
      obtain ⟨c0, hc0, hrow⟩ := hc
      rw [List.mem_filter] at hc0
      have hcontains : ctx.networkIds.contains c0.network_id = true := by
        have hp := hc0.2
        simp only [Bool.and_eq_true] at hp
        exact hp.2
      have hmem : c0.network_id ∈ ctx.networkIds := List.mem_of_elem_eq_true hcontains
      unfold visibleCellRow at hrow
      cases hfind : db.church_networks.find? (fun n => n.id == c0.network_id) with
      | none => rw [hfind] at hrow; exact Option.noConfusion hrow
      | some n =>
        rw [hfind] at hrow
        injection hrow with hrow
        rw [← hrow]
        exact hmem
  · intro hscope hempty
    unfold getVisibleCells
    rw [if_pos hscope, if_pos (by rw [hempty]; rfl)]

/-- C2 witness: a pastor_rede member assigned to network 3 of two
networks; the built context has empty `cellIds` and the only visible
cell belongs to network 3. -/
theorem claim2_network_scope_witness :
    ctxW2.cellIds = [] ∧
    (∀ c ∈ getVisibleCells dbW2 ctxW2, c.network_id ∈ ctxW2.networkIds) :=
  ⟨(claim2_network_scope dbW2 2 1 ctxW2).1 (by decide) (by decide),
   (claim2_network_scope dbW2 2 1 ctxW2).2.1 (by decide)⟩

/-- C3: `assertPermission` fails with the Forbidden error exactly when
the requested action is not in the matrix set for the role of the
context, and succeeds exactly otherwise; for every context with role
lider_celula the pair (pastor_presidente, view) is always rejected; and
a gate failure aborts the operation with no database effect,
demonstrated on the promote route, which returns the Forbidden error and
the unchanged database whenever the gate rejects the loaded context. -/
theorem claim3_gate (ctx : AccessContext) (m : ModuleKey) (a : ActionKey) :
    (assertPermission ctx m a = .error permissionDeniedError ↔
        canAccess ctx.role m a = false) ∧
    (assertPermission ctx m a = .ok () ↔ canAccess ctx.role m a = true) ∧
    (ctx.role = .lider_celula →
        assertPermission ctx .pastor_presidente .view = .error permissionDeniedError) ∧
    (∀ (db : PanelDB) (userId tenantId participantId cellId : Nat) (ctx2 : AccessContext),
        loadAccessContext db userId tenantId = some ctx2 →
        canAccess ctx2.role .lider_celula .edit = false →
        promoteParticipant db userId tenantId participantId cellId =
          (.error permissionDeniedError, db)) := by
  refine ⟨?_, ?_, ?_, ?_⟩
  · unfold assertPermission
    cases hca : canAccess ctx.role m a
    · simp
    · simp
  · unfold assertPermission
    cases hca : canAccess ctx.role m a
    · simp [permissionDeniedError]
    · simp
  · intro hrole
    unfold assertPermission
    rw [hrole]
    decide
  · intro db userId tenantId participantId cellId ctx2 hload hgate
    have hperm : assertPermission ctx2 .lider_celula .edit = .error permissionDeniedError := by
      unfold assertPermission
      rw [hgate]
      rfl
    unfold promoteParticipant
    have hgo : promoteGo db userId tenantId participantId cellId =
        .error permissionDeniedError := by
      unfold promoteGo
      simp only [hload, hperm]
    rw [hgo]

/-- C3 witness: the lider_celula rejection at a concrete context, and a
concrete pastor_presidente session for which the promote route returns
Forbidden with the database untouched. -/
theorem claim3_gate_witness :
    assertPermission ctxW3 .pastor_presidente .view = .error permissionDeniedError ∧
    promoteParticipant dbW3 2 1 9 9 = (.error permissionDeniedError, dbW3) :=
  ⟨(claim3_gate ctxW3 .pastor_presidente .view).2.2.1 (by decide),
   (claim3_gate ctxW3 .pastor_presidente .view).2.2.2 dbW3 2 1 9 9 ctxW3p
     (by decide) (by decide)⟩

/-- C9: the registration path and the cell-transfer path are each
all-or-nothing: whatever query of their transaction fails (for any
failure oracle), the route returns an error together with the database
it started from, so no partial write (no orphaned tenant, no
half-applied transfer) is ever visible. -/
theorem claim9_atomicity (oracle : Oracle) (nfd : List Char → List Char) (now : Nat)
    (hashPw : String → String) (db : PanelDB) (rp : RegisterPayload)
    (userId tenantId : Nat) (tp : TransferPayload) :
    (∀ e db2, register oracle nfd now hashPw db rp = (.error e, db2) → db2 = db) ∧
    (∀ e db2, postTransfers oracle db userId tenantId tp = (.error e, db2) → db2 = db) := by
  constructor
  · intro e db2 h
    unfold register at h
    cases hgo : registerGo oracle nfd now hashPw db rp with
    | ok p => rw [hgo] at h; simp at h
    | error e2 =>
      rw [hgo] at h
      rw [Prod.mk.injEq] at h
      exact h.2.symm
  · intro e db2 h
    unfold postTransfers at h
    cases hgo : transferGo oracle db userId tenantId tp with
    | ok p => rw [hgo] at h; simp at h
    | error e2 =>
      rw [hgo] at h
      rw [Prod.mk.injEq] at h
      exact h.2.symm

/-- C9 witness: a transfer interrupted by a datastore failure right
after the source-link deactivation, and a registration interrupted at
the owner-membership insert; both roll back to the database they started
from (source link still active, no transfer log row, no orphaned
tenant). -/
theorem claim9_atomicity_witness :
    (postTransfers oracleW9 dbW9 2 1 payloadW9).2 = dbW9 ∧
    (register oracleW9r (fun s => s) 0 (fun p => p) emptyDB payloadW9r).2 = emptyDB :=
  ⟨(claim9_atomicity oracleW9 (fun s => s) 0 (fun p => p) dbW9 payloadW9r 2 1 payloadW9).2
      (.dbe ⟨"XX", "boom"⟩) (postTransfers oracleW9 dbW9 2 1 payloadW9).2 (by decide),
   (claim9_atomicity oracleW9r (fun s => s) 0 (fun p => p) emptyDB payloadW9r 2 1
        payloadW9).1
      (.dbe ⟨"XX", "boom"⟩)
      (register oracleW9r (fun s => s) 0 (fun p => p) emptyDB payloadW9r).2 (by decide)⟩

/-- C10: a successful run of the promote route over the active link of
the addressed participant advances its category by exactly one step
(visitor to congregated, congregated to member, via `promoteStep`) and
records one status-history row, and never demotes: when the link is
already of type member the route reports success while leaving the
database completely unchanged. -/
theorem claim10_promote (db : PanelDB) (userId tenantId participantId cellId : Nat)
    (l : ParticipantCellLinkRow) (res : PromoteResponse) (db2 : PanelDB)
    (hl : linkLookup db tenantId participantId cellId = some l)
    (h : promoteParticipant db userId tenantId participantId cellId = (.ok res, db2)) :
    (l.type = .member → res = .alreadyMember .member ∧ db2 = db) ∧
    (l.type ≠ .member →
        res = .promoted l.type (promoteStep l.type) ∧
        linkLookup db2 tenantId participantId cellId =
          some { l with type := promoteStep l.type } ∧
        db2.participant_status_history =
          db.participant_status_history ++
            [{ tenant_id := tenantId
               participant_id := participantId
               from_type := some l.type
               to_type := promoteStep l.type
               changed_by_user_id := userId
               notes := "Promocao de categoria" }]) := by
  have hgo : promoteGo db userId tenantId participantId cellId = .ok (res, db2) := by
    unfold promoteParticipant at h
    cases hg : promoteGo db userId tenantId participantId cellId with
    | ok p =>
      obtain ⟨r, d⟩ := p
      simp only [hg, Prod.mk.injEq, Except.ok.injEq] at h
      obtain ⟨rfl, rfl⟩ := h
      rfl
    | error e =>
      simp only [hg, Prod.mk.injEq] at h
      exact absurd h.1 (by simp)
  unfold promoteGo at hgo
  split at hgo
  · exact Except.noConfusion hgo
  rename_i ctx hload
  obtain ⟨huid, htid⟩ := loadAccessContext_ids db userId tenantId ctx hload
  split at hgo
  · exact Except.noConfusion hgo
  split at hgo
  · exact Except.noConfusion hgo
  split at hgo
  · exact Except.noConfusion hgo
  rename_i current hlink
  rw [htid] at hlink
  rw [hl] at hlink
  injection hlink with hlink
  subst hlink
  rw [htid, huid] at hgo
  split at hgo
  · rename_i htt
    injection hgo with hgo
    rw [Prod.mk.injEq] at hgo
    obtain ⟨hres, hdb⟩ := hgo
    have hmem : l.type = .member := by
      cases hty : l.type with
      | visitor => rw [hty] at htt; exact absurd htt (by decide)
      | congregated => rw [hty] at htt; exact absurd htt (by decide)
      | member => rfl
    refine ⟨fun _ => ⟨?_, hdb.symm⟩, fun hne => absurd hmem hne⟩
    rw [← hres, hmem]
    rfl
  · rename_i htt
    injection hgo with hgo
    rw [Prod.mk.injEq] at hgo
    obtain ⟨hres, hdb⟩ := hgo
    have hnmem : l.type ≠ .member := by
      intro hmem
      exact htt (by rw [hmem]; decide)
    refine ⟨fun hmem => absurd hmem hnmem, fun _ => ⟨hres.symm, ?_, ?_⟩⟩
    · have hlinks : db2.participant_cell_links =
          db.participant_cell_links.map
            (applyPromoteUpdate tenantId participantId cellId (promoteStep l.type)) := by
        rw [← hdb]
      have hkey : linkKey participantId cellId tenantId l = true :=
        List.find?_some (show db.participant_cell_links.find?
          (linkKey participantId cellId tenantId) = some l from hl)
      have hcond : (l.participant_id == participantId &&
          l.cell_id == cellId && l.tenant_id == tenantId) = true := by
        unfold linkKey at hkey
        simp only [Bool.and_eq_true] at hkey ⊢
        exact hkey.1
      have hp : ∀ x, linkKey participantId cellId tenantId
          (applyPromoteUpdate tenantId participantId cellId (promoteStep l.type) x) =
          linkKey participantId cellId tenantId x := by
        intro x
        unfold applyPromoteUpdate linkKey
        split
        · rfl
        · rfl
      unfold linkLookup
      rw [hlinks, find?_map_pres _ _ hp,
        show db.participant_cell_links.find? (linkKey participantId cellId tenantId) =
          some l from hl, Option.map_some']
      unfold applyPromoteUpdate
      rw [if_pos hcond]
    · rw [← hdb]

/-- C10 witness: promoting the seeded visitor link (participant 6 on
cell 4) yields a congregated link and one appended history row. -/
theorem claim10_promote_witness :
    linkLookup (promoteParticipant dbW10 2 1 6 4).2 1 6 4 =
      some { linkW10 with type := promoteStep linkW10.type } ∧
    (promoteParticipant dbW10 2 1 6 4).2.participant_status_history =
      dbW10.participant_status_history ++
        [{ tenant_id := 1
           participant_id := 6
           from_type := some ParticipantType.visitor
           to_type := ParticipantType.congregated
           changed_by_user_id := 2
           notes := "Promocao de categoria" }] :=
  have hcl := claim10_promote dbW10 2 1 6 4 linkW10 (.promoted .visitor .congregated)
    (promoteParticipant dbW10 2 1 6 4).2 (by decide) (by decide)
  ⟨(hcl.2 (by decide)).2.1, (hcl.2 (by decide)).2.2⟩

end ChurchPanel
